import Mathlib

/-!
# triager: a verification development of `triager14.go`

The Go program probes a list of domains over HTTP and HTTPS.  This file embeds
the parts of `triager14.go` that carry its behaviour:

* `probeDomain` (lines 32-94), as a function from the answers of the
  network and of the Go library to the trace of effects the call performs;
* the dispatch loop of `main` (lines 126-142);
* the system of dispatcher, probers and the watcher goroutine
  (lines 126-149) as a transition system over interleavings;
* the collector loop of `main` (lines 171-197).

Go strings are byte sequences, so they are modelled as lists of bytes.
-/

namespace Triager

/-! ## Go strings -/

/-- A byte. -/
abbrev Byte := Fin 256

/-- A Go `string` (and a `[]byte`): a sequence of bytes. -/
abbrev GoString := List Byte

/-- The Go string of an ASCII literal of the source. -/
def lit (s : String) : GoString :=
  s.toList.map (fun c => Fin.ofNat c.toNat)

/-- Decimal rendering of an `int`, as `fmt.Sprint(n)` and the verb `%d` give it. -/
def decimal (n : Int) : GoString :=
  lit (toString n)

/-- Go's `strings.Join(elems, sep)`. -/
def Join : List GoString → GoString → GoString
  | [], _ => []
  | [a], _ => a
  | a :: b :: rest, sep => a ++ sep ++ Join (b :: rest) sep

/-! ## Data model -/

/-- The struct `OutputRow` (lines 19-28). -/
structure OutputRow where
  Domain : GoString
  IPAddress : GoString
  Port : GoString
  Protocol : GoString
  ResponseStatus : GoString
  RespSize : Int
  Headers : GoString
  Body : GoString
deriving DecidableEq, Repr

/-- The variable `portsToProbe` (line 30). -/
def portsToProbe : List GoString := [lit "80", lit "443"]

/-- A `net.IP`: a byte slice. -/
abbrev IP := List Byte

/-- What `ioutil.ReadAll(resp.Body)` returns for a response body: the bytes
read and whether the returned error is non-nil. -/
structure ReadCloser where
  bodyBytes : List Byte
  err : Bool
deriving DecidableEq, Repr

/-- The fields of `http.Response` that `probeDomain` reads.  `Header` is the
map `resp.Header`, listed in the order in which the `range` loop of line 65
visits its entries. -/
structure Response where
  StatusCode : Int
  Header : List (GoString × List GoString)
  Body : ReadCloser
deriving DecidableEq, Repr

/-- An `http.Request` as `probeDomain` builds it. -/
structure Request where
  Method : GoString
  URL : GoString
  Header : List (GoString × GoString)
deriving DecidableEq, Repr

/-- The `http.Client` of lines 42-44; `Timeout` in seconds. -/
structure Client where
  Timeout : Nat
deriving DecidableEq, Repr

/-- The pair `(ipAddr, errLookup)` returned by `net.LookupIP`; `err` says
whether `errLookup != nil`. -/
structure LookupResult where
  ipAddr : List IP
  err : Bool
deriving DecidableEq, Repr

/-- The pair `(resp, err)` returned by `client.Do`; `resp = none` is the nil
pointer and `err` says whether `err != nil`. -/
structure DoResult where
  resp : Option Response
  err : Bool
deriving DecidableEq, Repr

/-- The answers of the network and of the Go library to one call of
`probeDomain`. -/
structure Env where
  /-- `net.LookupIP(domain)`. -/
  LookupIP : GoString → LookupResult
  /-- Whether `http.NewRequest(method, url, nil)` returns a non-nil error. -/
  NewRequestErr : GoString → GoString → Bool
  /-- `client.Do(req)`. -/
  Do : Client → Request → DoResult
  /-- The method `net.IP.String`. -/
  IPString : IP → GoString

/-- Why a goroutine panics. -/
inductive PanicReason
  | nilDereference
  | indexOutOfRange
deriving DecidableEq, Repr

/-- The effects a call of `probeDomain` performs, in program order. -/
inductive Event
  | LookupIP (host : GoString)
  | NewRequest (method url : GoString)
  | Do (client : Client) (req : Request)
  | ReadAll
  | BodyClose
  | sendOutput (row : OutputRow)
  | sendUnresolved (domain : GoString)
  | wgDone
  /-- `log.Fatal`: the process exits with status 1, deferred calls do not run. -/
  | logFatal
  /-- A run-time panic starts; the deferred calls run next. -/
  | goPanic (reason : PanicReason)
  /-- The process dies after an unrecovered panic. -/
  | crash
deriving DecidableEq, Repr

/-! ## `probeDomain` (lines 32-94) -/

/-- The value of `status` after lines 54-60, for a non-nil `resp` or a
non-nil `err`. -/
def statusOf (r : DoResult) : GoString :=
  if r.err then lit "unreachable"
  else match r.resp with
    | some resp => decimal resp.StatusCode
    | none => lit "null"

/-- The loop of lines 64-68: one `name:values` string appended per entry of
the header map. -/
def headerList (h : List (GoString × List GoString)) : List GoString :=
  h.foldl (fun acc kv => acc ++ [kv.1 ++ lit ":" ++ Join kv.2 (lit "</br>")]) []

/-- The value of `headers` after lines 62-70. -/
def headersOf (r : DoResult) : GoString :=
  match r.resp with
  | none => lit "null"
  | some resp => Join (headerList resp.Header) (lit ",")

/-- The values of `body` and `respSize` after lines 72-80. -/
def bodyOf (r : DoResult) : GoString × Int :=
  match r.resp, r.err with
  | some resp, false =>
    if resp.Body.err then (lit "null", 0)
    else (resp.Body.bodyBytes, (resp.Body.bodyBytes.length : Int))
  | _, _ => (lit "null", 0)

/-- The effects of lines 72-80: `ReadAll` is called when `resp != nil` and
`err == nil`. -/
def readEvents (r : DoResult) : List Event :=
  match r.resp, r.err with
  | some _, false => [Event.ReadAll]
  | _, _ => []

/-- The deferred calls pending after line 60, in the order they run:
`resp.Body.Close()` (deferred only when `err == nil`), then `wg.Done()`. -/
def deferredCalls (r : DoResult) : List Event :=
  if r.err then [Event.wgDone] else [Event.BodyClose, Event.wgDone]

/-- The user agent set on line 50. -/
def userAgent : GoString :=
  lit "Mozilla/5.0 (X11; Ubuntu; Linux x86_64; rv:15.0) Gecko/20100101 Firefox/15.0.1"

/-- The URL built on line 41 by `fmt.Sprintf("%s://%s:%s", protocol, domain, port)`. -/
def probeURL (domain port protocol : GoString) : GoString :=
  protocol ++ lit "://" ++ domain ++ lit ":" ++ port

/-- The client of lines 42-44, with its timeout of 60 seconds. -/
def probeClient : Client :=
  { Timeout := 60 }

/-- The request of lines 46-50: a `GET` of the URL with the user agent set. -/
def probeRequest (domain port protocol : GoString) : Request :=
  { Method := lit "GET"
    URL := probeURL domain port protocol
    Header := [(lit "User-Agent", userAgent)] }

/-- The composite literal of lines 84-93, from the values the locals hold
after lines 54-82. -/
def buildRow (domain ip port protocol : GoString) (r : DoResult) : OutputRow :=
  { Domain := domain
    IPAddress := ip
    Port := port
    Protocol := protocol
    ResponseStatus := statusOf r
    RespSize := (bodyOf r).2
    Headers := headersOf r
    Body := (bodyOf r).1 }

/-- The function `probeDomain`: the trace of its effects, given the answers
`env` of the network and the library. -/
def probeDomain (env : Env) (domain port protocol : GoString) : List Event :=
  let lk := env.LookupIP domain
  if lk.err then
    [Event.LookupIP domain, Event.sendUnresolved domain, Event.wgDone]
  else
    let url := probeURL domain port protocol
    if env.NewRequestErr (lit "GET") url then
      [Event.LookupIP domain, Event.NewRequest (lit "GET") url, Event.logFatal]
    else
      let req := probeRequest domain port protocol
      let r := env.Do probeClient req
      let called :=
        [Event.LookupIP domain, Event.NewRequest (lit "GET") url, Event.Do probeClient req]
      match r.resp, r.err with
      | none, false =>
        -- line 58: `resp.StatusCode` on a nil `resp`
        called ++ [Event.goPanic PanicReason.nilDereference, Event.wgDone, Event.crash]
      | _, _ =>
        match lk.ipAddr with
        | [] =>
          -- line 82: `ipAddr[0]` on an empty slice
          called ++ readEvents r ++ [Event.goPanic PanicReason.indexOutOfRange]
            ++ deferredCalls r ++ [Event.crash]
        | ip0 :: _ =>
          called ++ readEvents r ++
            [Event.sendOutput (buildRow domain (env.IPString ip0) port protocol r)]
            ++ deferredCalls r

/-- The rows a trace sends on the channel `output`. -/
def outputSends : List Event → List OutputRow
  | [] => []
  | Event.sendOutput row :: t => row :: outputSends t
  | _ :: t => outputSends t

/-- The domains a trace sends on the channel `unresolvedOutput`. -/
def unresolvedSends : List Event → List GoString
  | [] => []
  | Event.sendUnresolved d :: t => d :: unresolvedSends t
  | _ :: t => unresolvedSends t

/-- Whether an event builds or issues an HTTP request. -/
def Event.isRequest : Event → Bool
  | Event.NewRequest _ _ => true
  | Event.Do _ _ => true
  | _ => false

/-- Whether an event is a channel send. -/
def Event.isSend : Event → Bool
  | Event.sendOutput _ => true
  | Event.sendUnresolved _ => true
  | _ => false

/-! ## The dispatch loop of `main` (lines 126-142) -/

/-- What the dispatch loop does to the wait group and the scheduler. -/
inductive DispatchEvent
  | wgAdd (delta : Nat)
  | goProbe (domain port protocol : GoString)
deriving DecidableEq, Repr

/-- The body of the inner loop (lines 130-140) for one domain and one port. -/
def dispatchPort (domain port : GoString) : List DispatchEvent :=
  if port = lit "80" then
    [DispatchEvent.wgAdd 1, DispatchEvent.goProbe domain port (lit "http")]
  else if port = lit "443" then
    [DispatchEvent.wgAdd 1, DispatchEvent.goProbe domain port (lit "https")]
  else
    [DispatchEvent.wgAdd 2, DispatchEvent.goProbe domain port (lit "http"),
      DispatchEvent.goProbe domain port (lit "https")]

/-- The inner loop `for _, port := range portsToProbe` for one domain. -/
def dispatchPorts (domain : GoString) : List GoString → List DispatchEvent
  | [] => []
  | port :: rest => dispatchPort domain port ++ dispatchPorts domain rest

/-- The outer loop `for scanner.Scan()` over the lines of the input file. -/
def dispatch (ports : List GoString) : List GoString → List DispatchEvent
  | [] => []
  | domain :: rest => dispatchPorts domain ports ++ dispatch ports rest

/-- The probers a dispatch trace spawns, in order. -/
def spawned : List DispatchEvent → List (GoString × GoString × GoString)
  | [] => []
  | DispatchEvent.goProbe d p q :: t => (d, p, q) :: spawned t
  | DispatchEvent.wgAdd _ :: t => spawned t

/-- The total a dispatch trace adds to the wait group. -/
def added : List DispatchEvent → Nat
  | [] => 0
  | DispatchEvent.wgAdd n :: t => n + added t
  | DispatchEvent.goProbe _ _ _ :: t => added t

/-- The probers the specification lists for one domain and one port: one
`http` prober for port 80, one `https` prober for port 443, both for any other
port. -/
def specProbers (domain port : GoString) : List (GoString × GoString × GoString) :=
  if port = lit "80" then [(domain, lit "80", lit "http")]
  else if port = lit "443" then [(domain, lit "443", lit "https")]
  else [(domain, port, lit "http"), (domain, port, lit "https")]

/-- The probers the specification lists for a whole input: domains in input
order, ports in list order. -/
def specDispatch (ports domains : List GoString) : List (GoString × GoString × GoString) :=
  domains.flatMap (fun d => ports.flatMap (fun p => specProbers d p))

/-! ## Dispatcher, probers and watcher as a transition system (lines 120-149) -/

/-- Where the watcher goroutine of lines 144-149 stands. -/
inductive WatcherPc
  /-- The statement `go func() ...` has not run yet. -/
  | notStarted
  /-- Blocked in `wg.Wait()`. -/
  | waiting
  /-- The call `wg.Wait()` has returned. -/
  | woken
  /-- The call `close(output)` has run. -/
  | closedOutput
  /-- The call `close(unresolvedOutput)` has run; the send on `done` that
  follows touches neither channel. -/
  | closedBoth
deriving DecidableEq, Repr

/-- The capacity of both channels (lines 120-121). -/
def channelCap : Nat := 100

/-- The shared state of the running program. -/
structure Sys where
  /-- What the dispatch loop of the main goroutine has still to do. -/
  todo : List DispatchEvent
  watcher : WatcherPc
  /-- The counter of the wait group `wg`. -/
  counter : Int
  /-- The effects each spawned prober has still to perform. -/
  probers : List (List Event)
  /-- The items buffered in the channel `output`. -/
  output : List OutputRow
  /-- The items buffered in the channel `unresolvedOutput`. -/
  unresolvedOutput : List GoString
  outputClosed : Bool
  unresolvedClosed : Bool
  /-- The process has exited or crashed. -/
  halted : Bool
  /-- The sends performed on a channel that was already closed. -/
  lateSends : List Event
deriving DecidableEq, Repr

/-- The state in which `main` enters the dispatch loop. -/
def Sys.init (ports domains : List GoString) : Sys :=
  { todo := dispatch ports domains
    watcher := WatcherPc.notStarted
    counter := 0
    probers := []
    output := []
    unresolvedOutput := []
    outputClosed := false
    unresolvedClosed := false
    halted := false
    lateSends := [] }

/-- Which goroutine the scheduler runs next. -/
inductive Choice
  /-- The main goroutine: the next statement of the dispatch loop, then the
  statement that starts the watcher. -/
  | main
  | watcher
  /-- The prober spawned as number `i`. -/
  | prober (i : Nat)
  /-- The main goroutine, past the dispatch loop, receives from `output`
  (`true`) or from `unresolvedOutput` (`false`). -/
  | receive (fromOutput : Bool)
  /-- The main goroutine, past the dispatch loop, leaves the process through
  `log.Fatal` or `os.Exit` (lines 153, 159 and 167). -/
  | mainExit
deriving DecidableEq, Repr

/-- The effect of one prober event on the shared state; `none` when the event
blocks (a send on a full channel). -/
def execEvent (s : Sys) : Event → Option Sys
  | Event.sendOutput row =>
    if s.outputClosed then
      some { s with lateSends := s.lateSends ++ [Event.sendOutput row], halted := true }
    else if s.output.length < channelCap then
      some { s with output := s.output ++ [row] }
    else none
  | Event.sendUnresolved d =>
    if s.unresolvedClosed then
      some { s with lateSends := s.lateSends ++ [Event.sendUnresolved d], halted := true }
    else if s.unresolvedOutput.length < channelCap then
      some { s with unresolvedOutput := s.unresolvedOutput ++ [d] }
    else none
  | Event.wgDone =>
    -- a negative counter makes `wg.Done()` panic
    if s.counter - 1 < 0 then some { s with counter := s.counter - 1, halted := true }
    else some { s with counter := s.counter - 1 }
  | Event.logFatal => some { s with halted := true }
  | Event.crash => some { s with halted := true }
  | _ => some s

/-- One step of the goroutine the scheduler chose; `none` when that goroutine
cannot move.  Prober number `k` runs `probeDomain` against the answers
`envs k`. -/
def step (envs : Nat → Env) (s : Sys) (c : Choice) : Option Sys :=
  if s.halted then none
  else match c with
    | Choice.main =>
      match s.todo with
      | DispatchEvent.wgAdd n :: rest =>
        some { s with counter := s.counter + (n : Int), todo := rest }
      | DispatchEvent.goProbe d p q :: rest =>
        some { s with probers := s.probers ++ [probeDomain (envs s.probers.length) d p q],
                      todo := rest }
      | [] =>
        if s.watcher = WatcherPc.notStarted then some { s with watcher := WatcherPc.waiting }
        else none
    | Choice.watcher =>
      match s.watcher with
      | WatcherPc.notStarted => none
      | WatcherPc.waiting =>
        if s.counter = 0 then some { s with watcher := WatcherPc.woken } else none
      | WatcherPc.woken =>
        some { s with outputClosed := true, watcher := WatcherPc.closedOutput }
      | WatcherPc.closedOutput =>
        some { s with unresolvedClosed := true, watcher := WatcherPc.closedBoth }
      | WatcherPc.closedBoth => none
    | Choice.prober i =>
      match s.probers.get? i with
      | some (ev :: rest) => execEvent { s with probers := s.probers.set i rest } ev
      | _ => none
    | Choice.receive true =>
      match s.todo, s.watcher, s.output with
      | [], WatcherPc.notStarted, _ => none
      | [], _, _ :: rest => some { s with output := rest }
      | _, _, _ => none
    | Choice.receive false =>
      match s.todo, s.watcher, s.unresolvedOutput with
      | [], WatcherPc.notStarted, _ => none
      | [], _, _ :: rest => some { s with unresolvedOutput := rest }
      | _, _, _ => none
    | Choice.mainExit =>
      match s.todo, s.watcher with
      | [], WatcherPc.notStarted => none
      | [], _ => some { s with halted := true }
      | _, _ => none

/-- The state after a schedule, when every chosen goroutine could move. -/
def run (envs : Nat → Env) : Sys → List Choice → Option Sys
  | s, [] => some s
  | s, c :: cs =>
    match step envs s c with
    | some s' => run envs s' cs
    | none => none

/-- Every send of the trace is followed, later in the trace, by `wgDone`. -/
def doneAfterSends : List Event → Bool
  | [] => true
  | e :: t => (if e.isSend then decide (Event.wgDone ∈ t) else true) && doneAfterSends t

/-- How many decrements the probers have still to perform. -/
def pendingDone (ps : List (List Event)) : Nat :=
  (ps.map (fun t => t.count Event.wgDone)).sum

/-- The number of spawns of a dispatch trace that no addition of the same
trace covers. -/
def uncovered : List DispatchEvent → Int
  | [] => 0
  | DispatchEvent.wgAdd n :: t => uncovered t - (n : Int)
  | DispatchEvent.goProbe _ _ _ :: t => uncovered t + 1

/-! ## The collector loop of `main` (lines 163-197) -/

/-- The line `fmt.Printf` writes for a row (line 178). -/
def formatRow (row : OutputRow) : GoString :=
  row.Domain ++ lit "," ++ row.IPAddress ++ lit "," ++ row.Port ++ lit "," ++ row.Protocol
    ++ lit "," ++ row.ResponseStatus ++ lit "," ++ row.Headers ++ lit "," ++ row.Body
    ++ lit "," ++ decimal row.RespSize ++ lit "\n"

/-- The state of the collector.  A channel variable is `none` once the loop
has set it to nil; `some q` holds the items the channel still delivers before
it reports closed. -/
structure Collector where
  output : Option (List OutputRow)
  unresolvedOutput : Option (List GoString)
  /-- The lines printed on standard output. -/
  stdout : List GoString
  /-- The rows passed to `stmt.Exec`. -/
  execCalls : List OutputRow
  /-- The rows whose `stmt.Exec` failed and was logged. -/
  errorLog : List OutputRow
  /-- The keys of the map `unresolvedDomains`. -/
  unresolvedDomains : List GoString
  /-- The assignments `unresolvedDomains[domain] = true` performed. -/
  insertions : List GoString
  /-- The strings written to `unresolvedFile`. -/
  unresolvedFile : List GoString
  /-- The receive on `output` has reported `ok == false`. -/
  sawOutputClosed : Bool
  /-- The receive on `unresolvedOutput` has reported `ok == false`. -/
  sawUnresolvedClosed : Bool
deriving DecidableEq, Repr

/-- The collector as it enters the loop, the channels delivering `rows` and
`markers` before they report closed. -/
def Collector.start (rows : List OutputRow) (markers : List GoString) : Collector :=
  { output := some rows
    unresolvedOutput := some markers
    stdout := []
    execCalls := []
    errorLog := []
    unresolvedDomains := []
    insertions := []
    unresolvedFile := []
    sawOutputClosed := false
    sawUnresolvedClosed := false }

/-- The assignment `m[key] = true` on the key set of a `map[string]bool`. -/
def mapInsert (m : List GoString) (key : GoString) : List GoString :=
  if key ∈ m then m else m ++ [key]

/-- The case `row, ok := <-output` (lines 173-183). -/
def caseOutput (execErr : OutputRow → Bool) (c : Collector) : Option Collector :=
  match c.output with
  | none => none
  | some [] => some { c with output := none, sawOutputClosed := true }
  | some (row :: rest) =>
    some { c with
      output := some rest
      stdout := c.stdout ++ [formatRow row]
      execCalls := c.execCalls ++ [row]
      errorLog := if execErr row then c.errorLog ++ [row] else c.errorLog }

/-- The case `domain, ok := <-unresolvedOutput` (lines 185-191). -/
def caseUnresolved (c : Collector) : Option Collector :=
  match c.unresolvedOutput with
  | none => none
  | some [] => some { c with unresolvedOutput := none, sawUnresolvedClosed := true }
  | some (domain :: rest) =>
    some { c with
      unresolvedOutput := some rest
      unresolvedDomains := mapInsert c.unresolvedDomains domain
      insertions := c.insertions ++ [domain]
      unresolvedFile := c.unresolvedFile ++ [domain ++ lit "\n"] }

/-- The `select` statement of lines 172-192.  A nil channel is never chosen;
when both channels are non-nil, `pickOutput` says which case runs.  `none`
when both are nil: the statement blocks for ever. -/
def selectStep (execErr : OutputRow → Bool) (pickOutput : Bool) (c : Collector) :
    Option Collector :=
  match c.output, c.unresolvedOutput with
  | none, none => none
  | some _, none => caseOutput execErr c
  | none, some _ => caseUnresolved c
  | some _, some _ => if pickOutput then caseOutput execErr c else caseUnresolved c

/-- The loop of lines 171-197, run for at most `fuel` iterations from
iteration number `i`; `sched i` is the choice `select` makes in iteration
`i`.  `none` when the fuel runs out or the loop blocks. -/
def collect (execErr : OutputRow → Bool) (sched : Nat → Bool) :
    Nat → Nat → Collector → Option Collector
  | 0, _, _ => none
  | fuel + 1, i, c =>
    match selectStep execErr (sched i) c with
    | none => none
    | some c' =>
      if c'.output.isNone && c'.unresolvedOutput.isNone then some c'
      else collect execErr sched fuel (i + 1) c'

/-- The number of iterations the loop has still to run. -/
def Collector.remaining (c : Collector) : Nat :=
  (match c.output with | none => 0 | some q => q.length + 1) +
  (match c.unresolvedOutput with | none => 0 | some q => q.length + 1)

/-- The state in which the loop leaves the collector `c`: every item still to
be delivered has been handled and both channels have reported closed. -/
def Collector.final (execErr : OutputRow → Bool) (c : Collector) : Collector :=
  { output := none
    unresolvedOutput := none
    stdout := c.stdout ++ (c.output.getD []).map formatRow
    execCalls := c.execCalls ++ c.output.getD []
    errorLog := c.errorLog ++ (c.output.getD []).filter execErr
    unresolvedDomains := (c.unresolvedOutput.getD []).foldl mapInsert c.unresolvedDomains
    insertions := c.insertions ++ c.unresolvedOutput.getD []
    unresolvedFile := c.unresolvedFile ++ (c.unresolvedOutput.getD []).map (fun d => d ++ lit "\n")
    sawOutputClosed := c.sawOutputClosed || c.output.isSome
    sawUnresolvedClosed := c.sawUnresolvedClosed || c.unresolvedOutput.isSome }

/-- The invariant of the running program. -/
structure SysInv (s : Sys) : Prop where
  /-- No send was performed on a closed channel. -/
  late : s.lateSends = []
  /-- The counter covers every decrement still to come. -/
  covered : (pendingDone s.probers : Int) + uncovered s.todo ≤ s.counter
  /-- The watcher starts after the dispatch loop. -/
  dispatched : s.watcher ≠ WatcherPc.notStarted → s.todo = []
  /-- Once `wg.Wait()` has returned the counter is zero. -/
  zero : s.watcher ≠ WatcherPc.notStarted → s.watcher ≠ WatcherPc.waiting → s.counter = 0
  /-- The channels are closed by the watcher only. -/
  outputClosedBy : s.outputClosed = true →
    s.watcher = WatcherPc.closedOutput ∨ s.watcher = WatcherPc.closedBoth
  unresolvedClosedBy : s.unresolvedClosed = true → s.watcher = WatcherPc.closedBoth
  /-- Every send a prober has still to perform precedes its decrement. -/
  ordered : ∀ t ∈ s.probers, doneAfterSends t = true

/-! ## Sample answers used by the worked examples -/

/-- A response with status 200, two headers and the body `hello`. -/
def sampleResponse : Response :=
  { StatusCode := 200
    Header := [(lit "Server", [lit "nginx"]), (lit "Set-Cookie", [lit "a=1", lit "b=2"])]
    Body := { bodyBytes := lit "hello", err := false } }

/-- The address 93.184.216.34. -/
def sampleIP : IP := [93, 184, 216, 34]

/-- Answers in which every domain fails to resolve. -/
def envUnresolved : Env :=
  { LookupIP := fun _ => { ipAddr := [], err := true }
    NewRequestErr := fun _ _ => false
    Do := fun _ _ => { resp := none, err := true }
    IPString := fun _ => lit "93.184.216.34" }

/-- Answers of a host that resolves to `sampleIP` and whose request returns
`result`. -/
def envResolved (result : DoResult) : Env :=
  { LookupIP := fun _ => { ipAddr := [sampleIP], err := false }
    NewRequestErr := fun _ _ => false
    Do := fun _ _ => result
    IPString := fun _ => lit "93.184.216.34" }

/-- The last response of a redirect loop: status 302 with a `Location` header.
`client.Do` returns it together with the error of the redirect policy, its
body already closed. -/
def redirectResponse : Response :=
  { StatusCode := 302
    Header := [(lit "Location", [lit "/loop"])]
    Body := { bodyBytes := [], err := true } }

/-- A response with status 200 whose body is the four bytes `null`. -/
def nullBodyResponse : Response :=
  { StatusCode := 200
    Header := [(lit "Content-Type", [lit "application/json"])]
    Body := { bodyBytes := lit "null", err := false } }

/-- A response with status 200 whose body cannot be read to the end. -/
def brokenBodyResponse : Response :=
  { StatusCode := 200
    Header := [(lit "Server", [lit "nginx"])]
    Body := { bodyBytes := lit "hel", err := true } }

/-- Answers in which the lookup returns no error and no address, and the
request succeeds. -/
def envNoAddress : Env :=
  { LookupIP := fun _ => { ipAddr := [], err := false }
    NewRequestErr := fun _ _ => false
    Do := fun _ _ => { resp := some sampleResponse, err := false }
    IPString := fun _ => lit "93.184.216.34" }

/-- The request timed out: an error and no response. -/
def timeoutResult : DoResult :=
  { resp := none, err := true }

/-- The redirect policy stopped the request: an error and the last response. -/
def redirectLoopResult : DoResult :=
  { resp := some redirectResponse, err := true }

/-- The row `probeDomain` sends for `example.com` on port 443 after a timeout. -/
def timeoutRow : OutputRow :=
  { Domain := lit "example.com"
    IPAddress := lit "93.184.216.34"
    Port := lit "443"
    Protocol := lit "https"
    ResponseStatus := lit "unreachable"
    RespSize := 0
    Headers := lit "null"
    Body := lit "null" }

/-- The row `probeDomain` sends for `example.com` on port 80 after a redirect
loop. -/
def redirectLoopRow : OutputRow :=
  { Domain := lit "example.com"
    IPAddress := lit "93.184.216.34"
    Port := lit "80"
    Protocol := lit "http"
    ResponseStatus := lit "unreachable"
    RespSize := 0
    Headers := lit "Location:/loop"
    Body := lit "null" }

/-- The row `probeDomain` sends for `example.com` on port 80 when the answer is
`sampleResponse`. -/
def sampleRow : OutputRow :=
  { Domain := lit "example.com"
    IPAddress := lit "93.184.216.34"
    Port := lit "80"
    Protocol := lit "http"
    ResponseStatus := lit "200"
    RespSize := 5
    Headers := lit "Server:nginx,Set-Cookie:a=1</br>b=2"
    Body := lit "hello" }

/-- The row `probeDomain` sends for `example.com` on port 80 when the answer is
`nullBodyResponse`. -/
def nullBodyRow : OutputRow :=
  { Domain := lit "example.com"
    IPAddress := lit "93.184.216.34"
    Port := lit "80"
    Protocol := lit "http"
    ResponseStatus := lit "200"
    RespSize := 4
    Headers := lit "Content-Type:application/json"
    Body := lit "null" }

/-- The row `probeDomain` sends for `example.com` on port 80 when the answer is
`brokenBodyResponse`. -/
def brokenBodyRow : OutputRow :=
  { Domain := lit "example.com"
    IPAddress := lit "93.184.216.34"
    Port := lit "80"
    Protocol := lit "http"
    ResponseStatus := lit "200"
    RespSize := 0
    Headers := lit "Server:nginx"
    Body := lit "null" }

/-- A schedule for one domain and the default ports: the dispatch loop, the
start of the watcher, both probers to their end, the watcher to its end, and
two receives. -/
def sampleSchedule : List Choice :=
  [Choice.main, Choice.main, Choice.prober 0, Choice.main, Choice.main, Choice.main,
   Choice.prober 1, Choice.prober 0, Choice.prober 1, Choice.prober 0, Choice.prober 1,
   Choice.watcher, Choice.watcher, Choice.receive false, Choice.watcher,
   Choice.receive false]

/-- The state `sampleSchedule` ends in. -/
def sampleFinal : Sys :=
  { todo := []
    watcher := WatcherPc.closedBoth
    counter := 0
    probers := [[], []]
    output := []
    unresolvedOutput := []
    outputClosed := true
    unresolvedClosed := true
    halted := false
    lateSends := [] }

/-! # Theorems -/

/-! ## Lemmas on `probeDomain` -/

/-- The loop of lines 64-68 builds one entry per header, in the order of the range. -/
theorem headerList_eq_map (h : List (GoString × List GoString)) :
    headerList h = h.map (fun kv => kv.1 ++ lit ":" ++ Join kv.2 (lit "</br>")) := by
  have key : ∀ (l : List (GoString × List GoString)) (acc : List GoString),
      l.foldl (fun acc kv => acc ++ [kv.1 ++ lit ":" ++ Join kv.2 (lit "</br>")]) acc
        = acc ++ l.map (fun kv => kv.1 ++ lit ":" ++ Join kv.2 (lit "</br>")) := by
    intro l
    induction l with
    | nil => intro acc; simp
    | cons a t ih =>
      intro acc
      rw [List.foldl_cons, ih, List.map_cons, List.append_assoc]
      rfl
  simpa [headerList] using key h []

/-- A byte of the first element occurs in the joined string. -/
theorem mem_Join_head (a : GoString) (t : List GoString) (sep : GoString) (x : Byte)
    (hx : x ∈ a) : x ∈ Join (a :: t) sep := by
  cases t with
  | nil => simpa [Join] using hx
  | cons b rest => simp [Join, hx]

/-- A serialised header map is never the sentinel: it is empty or holds a colon. -/
theorem headers_ne_null (h : List (GoString × List GoString)) :
    Join (headerList h) (lit ",") ≠ lit "null" := by
  rw [headerList_eq_map]
  cases h with
  | nil => decide
  | cons kv t =>
    intro hEq
    have hmem : (58 : Byte) ∈ Join ((kv :: t).map
        (fun kv => kv.1 ++ lit ":" ++ Join kv.2 (lit "</br>"))) (lit ",") := by
      simp only [List.map_cons]
      apply mem_Join_head
      have : (58 : Byte) ∈ lit ":" := by decide
      simp [this]
    rw [hEq] at hmem
    exact absurd hmem (by decide)

/-- The rows sent by a concatenation of traces. -/
theorem outputSends_append (a b : List Event) :
    outputSends (a ++ b) = outputSends a ++ outputSends b := by
  induction a with
  | nil => rfl
  | cons e t ih => cases e <;> simp [outputSends, ih]

/-- The domains sent by a concatenation of traces. -/
theorem unresolvedSends_append (a b : List Event) :
    unresolvedSends (a ++ b) = unresolvedSends a ++ unresolvedSends b := by
  induction a with
  | nil => rfl
  | cons e t ih => cases e <;> simp [unresolvedSends, ih]

/-- Reading the body sends no row. -/
theorem outputSends_readEvents (r : DoResult) : outputSends (readEvents r) = [] := by
  unfold readEvents
  split <;> rfl

/-- The deferred calls send no row. -/
theorem outputSends_deferredCalls (r : DoResult) : outputSends (deferredCalls r) = [] := by
  unfold deferredCalls
  split <;> rfl

/-- Reading the body sends no domain. -/
theorem unresolvedSends_readEvents (r : DoResult) : unresolvedSends (readEvents r) = [] := by
  unfold readEvents
  split <;> rfl

/-- The deferred calls send no domain. -/
theorem unresolvedSends_deferredCalls (r : DoResult) :
    unresolvedSends (deferredCalls r) = [] := by
  unfold deferredCalls
  split <;> rfl

/-- A row is sent only when the lookup returned no error and a first address,
the request was built, and `client.Do` returned a response or an error; the
row is then the one built from these answers. -/
theorem mem_outputSends_probeDomain (env : Env) (domain port protocol : GoString)
    (row : OutputRow) (h : row ∈ outputSends (probeDomain env domain port protocol)) :
    ∃ ip0 rest,
      env.LookupIP domain = { ipAddr := ip0 :: rest, err := false } ∧
      env.NewRequestErr (lit "GET") (probeURL domain port protocol) = false ∧
      ((env.Do probeClient (probeRequest domain port protocol)).resp ≠ none ∨
        (env.Do probeClient (probeRequest domain port protocol)).err = true) ∧
      row = buildRow domain (env.IPString ip0) port protocol
        (env.Do probeClient (probeRequest domain port protocol)) := by
  cases hl : env.LookupIP domain with
  | mk ips lerr =>
    cases lerr with
    | true => simp [probeDomain, hl, outputSends] at h
    | false =>
      cases hn : env.NewRequestErr (lit "GET") (probeURL domain port protocol) with
      | true => simp [probeDomain, hl, hn, outputSends] at h
      | false =>
        cases hd : env.Do probeClient (probeRequest domain port protocol) with
        | mk resp derr =>
          cases ips with
          | nil =>
            cases resp <;> cases derr <;>
              simp [probeDomain, hl, hn, hd, outputSends, outputSends_append,
                outputSends_readEvents, outputSends_deferredCalls] at h
          | cons ip0 rest =>
            cases resp <;> cases derr <;>
              simp [probeDomain, hl, hn, hd, outputSends, outputSends_append,
                outputSends_readEvents, outputSends_deferredCalls] at h <;>
              exact ⟨ip0, rest, rfl, rfl, by simp, h⟩

/-- When the lookup returned a first address, the request was built and
`client.Do` returned a response or an error, exactly one row is sent. -/
theorem outputSends_probeDomain_resolved (env : Env) (domain port protocol : GoString)
    (ip0 : IP) (rest : List IP)
    (hl : env.LookupIP domain = { ipAddr := ip0 :: rest, err := false })
    (hn : env.NewRequestErr (lit "GET") (probeURL domain port protocol) = false)
    (hr : (env.Do probeClient (probeRequest domain port protocol)).resp ≠ none ∨
      (env.Do probeClient (probeRequest domain port protocol)).err = true) :
    outputSends (probeDomain env domain port protocol) =
      [buildRow domain (env.IPString ip0) port protocol
        (env.Do probeClient (probeRequest domain port protocol))] := by
  cases hd : env.Do probeClient (probeRequest domain port protocol) with
  | mk resp derr =>
    rw [hd] at hr
    cases resp <;> cases derr <;>
      simp [probeDomain, hl, hn, hd, outputSends, outputSends_append,
        outputSends_readEvents, outputSends_deferredCalls] at hr ⊢

/-! ## C1 -/

/-- C1: when `net.LookupIP` returns an error, `probeDomain` sends exactly one
item on `unresolvedOutput`, the domain itself, sends nothing on `output`, and
neither builds nor issues an HTTP request. -/
theorem probeDomain_unresolved (env : Env) (domain port protocol : GoString)
    (h : (env.LookupIP domain).err = true) :
    unresolvedSends (probeDomain env domain port protocol) = [domain] ∧
    outputSends (probeDomain env domain port protocol) = [] ∧
    ∀ e ∈ probeDomain env domain port protocol, e.isRequest = false := by
  simp [probeDomain, h, unresolvedSends, outputSends, Event.isRequest]

/-- Witness of C1 at `bad.invalid-tld-xyz` on port 80. -/
theorem probeDomain_unresolved_witness :
    (envUnresolved.LookupIP (lit "bad.invalid-tld-xyz")).err = true ∧
    unresolvedSends (probeDomain envUnresolved (lit "bad.invalid-tld-xyz") (lit "80") (lit "http"))
      = [lit "bad.invalid-tld-xyz"] ∧
    outputSends (probeDomain envUnresolved (lit "bad.invalid-tld-xyz") (lit "80") (lit "http")) = [] ∧
    ∀ e ∈ probeDomain envUnresolved (lit "bad.invalid-tld-xyz") (lit "80") (lit "http"),
      e.isRequest = false :=
  ⟨rfl, probeDomain_unresolved envUnresolved _ _ _ rfl⟩

/-! ## C2 -/

/-- C2, as stated, fails: after a redirect loop `client.Do` returns an error
together with the last response, and the row carries that response's headers,
not the sentinel. -/
theorem request_error_headers_counterexample :
    ((envResolved redirectLoopResult).LookupIP (lit "example.com")).err = false ∧
    ((envResolved redirectLoopResult).Do probeClient
      (probeRequest (lit "example.com") (lit "80") (lit "http"))).err = true ∧
    outputSends (probeDomain (envResolved redirectLoopResult)
      (lit "example.com") (lit "80") (lit "http")) = [redirectLoopRow] ∧
    redirectLoopRow.Headers ≠ lit "null" := by
  decide

/-- C2, amended: when `client.Do` returns an error, the emitted row has
`ResponseStatus == "unreachable"`, `Body == "null"` and `RespSize == 0`;
`Headers == "null"` when no response object came with the error, and
otherwise `Headers` is the serialisation of that response's headers. -/
theorem request_error_row (env : Env) (domain port protocol : GoString) (row : OutputRow)
    (hrow : row ∈ outputSends (probeDomain env domain port protocol))
    (herr : (env.Do probeClient (probeRequest domain port protocol)).err = true) :
    row.ResponseStatus = lit "unreachable" ∧ row.Body = lit "null" ∧ row.RespSize = 0 ∧
    ((env.Do probeClient (probeRequest domain port protocol)).resp = none →
      row.Headers = lit "null") ∧
    (∀ resp, (env.Do probeClient (probeRequest domain port protocol)).resp = some resp →
      row.Headers = Join (resp.Header.map
        (fun kv => kv.1 ++ lit ":" ++ Join kv.2 (lit "</br>"))) (lit ",")) := by
  obtain ⟨ip0, rest, -, -, -, rfl⟩ := mem_outputSends_probeDomain env domain port protocol row hrow
  cases hd : env.Do probeClient (probeRequest domain port protocol) with
  | mk resp derr =>
    rw [hd] at herr
    simp only at herr
    subst herr
    cases resp <;> simp [buildRow, statusOf, bodyOf, headersOf, headerList_eq_map]

/-- Witness of amended C2: a request to `example.com:443` that times out. -/
theorem request_error_row_witness :
    timeoutRow ∈ outputSends (probeDomain (envResolved timeoutResult)
      (lit "example.com") (lit "443") (lit "https")) ∧
    ((envResolved timeoutResult).Do probeClient
      (probeRequest (lit "example.com") (lit "443") (lit "https"))).err = true ∧
    (timeoutRow.ResponseStatus = lit "unreachable" ∧ timeoutRow.Body = lit "null" ∧
      timeoutRow.RespSize = 0 ∧
      (((envResolved timeoutResult).Do probeClient
        (probeRequest (lit "example.com") (lit "443") (lit "https"))).resp = none →
        timeoutRow.Headers = lit "null") ∧
      (∀ resp, ((envResolved timeoutResult).Do probeClient
        (probeRequest (lit "example.com") (lit "443") (lit "https"))).resp = some resp →
        timeoutRow.Headers = Join (resp.Header.map
          (fun kv => kv.1 ++ lit ":" ++ Join kv.2 (lit "</br>"))) (lit ","))) :=
  ⟨by decide, rfl,
    request_error_row (envResolved timeoutResult) (lit "example.com") (lit "443") (lit "https")
      timeoutRow (by decide) rfl⟩

/-! ## C7 -/

/-- C7, as stated, fails: a server whose body is the four bytes `null` yields
a row with `RespSize == 4` and `Body == "null"`. -/
theorem respSize_body_counterexample :
    outputSends (probeDomain (envResolved { resp := some nullBodyResponse, err := false })
      (lit "example.com") (lit "80") (lit "http")) = [nullBodyRow] ∧
    nullBodyRow.RespSize ≠ 0 ∧ nullBodyRow.Body = lit "null" := by
  decide

/-- C7, amended: in every emitted row `RespSize` is non-zero only when the
request succeeded and the body was read without error; `Body` is then the
bytes read and `RespSize` their number, so `Body == "null"` with a non-zero
`RespSize` happens only for a payload that is itself the four bytes `null`. -/
theorem respSize_nonzero_row (env : Env) (domain port protocol : GoString) (row : OutputRow)
    (hrow : row ∈ outputSends (probeDomain env domain port protocol))
    (hsize : row.RespSize ≠ 0) :
    (∃ resp, env.Do probeClient (probeRequest domain port protocol)
        = { resp := some resp, err := false } ∧
      resp.Body.err = false ∧ row.Body = resp.Body.bodyBytes) ∧
    row.RespSize = (row.Body.length : Int) ∧
    (row.Body = lit "null" → row.RespSize = 4) := by
  obtain ⟨ip0, rest, -, -, -, rfl⟩ := mem_outputSends_probeDomain env domain port protocol row hrow
  cases hd : env.Do probeClient (probeRequest domain port protocol) with
  | mk resp derr =>
    rw [hd] at hsize
    cases resp with
    | none => cases derr <;> simp [buildRow, bodyOf] at hsize
    | some r =>
      cases derr with
      | true => simp [buildRow, bodyOf] at hsize
      | false =>
        cases hb : r.Body.err with
        | true => simp [buildRow, bodyOf, hb] at hsize
        | false =>
          have hbody : (buildRow domain (env.IPString ip0) port protocol
              { resp := some r, err := false }).Body = r.Body.bodyBytes := by
            simp [buildRow, bodyOf, hb]
          have hlen : (buildRow domain (env.IPString ip0) port protocol
              { resp := some r, err := false }).RespSize = (r.Body.bodyBytes.length : Int) := by
            simp [buildRow, bodyOf, hb]
          refine ⟨⟨r, rfl, hb, hbody⟩, ?_, ?_⟩
          · rw [hlen, hbody]
          · intro hnull
            rw [hlen, ← hbody, hnull]
            rfl

/-- Witness of amended C7: the row of `sampleResponse`, whose body has 5 bytes. -/
theorem respSize_nonzero_row_witness :
    sampleRow ∈ outputSends (probeDomain (envResolved { resp := some sampleResponse, err := false })
      (lit "example.com") (lit "80") (lit "http")) ∧
    sampleRow.RespSize ≠ 0 ∧
    ((∃ resp, (envResolved { resp := some sampleResponse, err := false }).Do probeClient
        (probeRequest (lit "example.com") (lit "80") (lit "http"))
          = { resp := some resp, err := false } ∧
      resp.Body.err = false ∧ sampleRow.Body = resp.Body.bodyBytes) ∧
    sampleRow.RespSize = (sampleRow.Body.length : Int) ∧
    (sampleRow.Body = lit "null" → sampleRow.RespSize = 4)) :=
  ⟨by decide, by decide,
    respSize_nonzero_row (envResolved { resp := some sampleResponse, err := false })
      (lit "example.com") (lit "80") (lit "http") sampleRow (by decide) (by decide)⟩

/-! ## C8 -/

/-- C8: in every emitted row `Headers` is `"null"` exactly when `client.Do`
returned no response object; when it returned one, `Headers` is the
comma-join of one entry per header of the response, in the order of the
range over the header map, each entry being the name, a colon, and the
values joined with `</br>`. -/
theorem headers_row (env : Env) (domain port protocol : GoString) (row : OutputRow)
    (hrow : row ∈ outputSends (probeDomain env domain port protocol)) :
    (row.Headers = lit "null" ↔
      (env.Do probeClient (probeRequest domain port protocol)).resp = none) ∧
    (∀ resp, (env.Do probeClient (probeRequest domain port protocol)).resp = some resp →
      row.Headers = Join (resp.Header.map
        (fun kv => kv.1 ++ lit ":" ++ Join kv.2 (lit "</br>"))) (lit ",") ∧
      (headerList resp.Header).length = resp.Header.length) := by
  obtain ⟨ip0, rest, -, -, -, rfl⟩ := mem_outputSends_probeDomain env domain port protocol row hrow
  cases hd : env.Do probeClient (probeRequest domain port protocol) with
  | mk resp derr =>
    cases resp with
    | none => simp [buildRow, headersOf]
    | some r =>
      refine ⟨?_, ?_⟩
      · simpa [buildRow, headersOf] using headers_ne_null r.Header
      · intro resp hresp
        simp only [Option.some.injEq] at hresp
        subst hresp
        simp [buildRow, headersOf, headerList_eq_map]

/-- Witness of C8: the row of `sampleResponse`, with two headers. -/
theorem headers_row_witness :
    sampleRow ∈ outputSends (probeDomain (envResolved { resp := some sampleResponse, err := false })
      (lit "example.com") (lit "80") (lit "http")) ∧
    ((sampleRow.Headers = lit "null" ↔
      ((envResolved { resp := some sampleResponse, err := false }).Do probeClient
        (probeRequest (lit "example.com") (lit "80") (lit "http"))).resp = none) ∧
    (∀ resp, ((envResolved { resp := some sampleResponse, err := false }).Do probeClient
        (probeRequest (lit "example.com") (lit "80") (lit "http"))).resp = some resp →
      sampleRow.Headers = Join (resp.Header.map
        (fun kv => kv.1 ++ lit ":" ++ Join kv.2 (lit "</br>"))) (lit ",") ∧
      (headerList resp.Header).length = resp.Header.length)) :=
  ⟨by decide,
    headers_row (envResolved { resp := some sampleResponse, err := false })
      (lit "example.com") (lit "80") (lit "http") sampleRow (by decide)⟩

/-! ## C9 -/

/-- C9: for a domain that resolved to at least one address and a request that
succeeded with the response `resp`, exactly one row is emitted; its
`ResponseStatus` is the decimal string of the status code and its `Headers`
the serialised headers, whether or not the body can be read; when the body is
read in full `Body` is the bytes read and `RespSize` their number; when
reading fails `Body == "null"` and `RespSize == 0`. -/
theorem success_row (env : Env) (domain port protocol : GoString)
    (ip0 : IP) (rest : List IP) (resp : Response)
    (hl : env.LookupIP domain = { ipAddr := ip0 :: rest, err := false })
    (hn : env.NewRequestErr (lit "GET") (probeURL domain port protocol) = false)
    (hd : env.Do probeClient (probeRequest domain port protocol)
      = { resp := some resp, err := false }) :
    ∃ row, outputSends (probeDomain env domain port protocol) = [row] ∧
      row.ResponseStatus = decimal resp.StatusCode ∧
      row.Headers = Join (resp.Header.map
        (fun kv => kv.1 ++ lit ":" ++ Join kv.2 (lit "</br>"))) (lit ",") ∧
      (resp.Body.err = false →
        row.Body = resp.Body.bodyBytes ∧ row.RespSize = (resp.Body.bodyBytes.length : Int)) ∧
      (resp.Body.err = true → row.Body = lit "null" ∧ row.RespSize = 0) := by
  refine ⟨_, outputSends_probeDomain_resolved env domain port protocol ip0 rest hl hn
    (by simp [hd]), ?_⟩
  rw [hd]
  cases hb : resp.Body.err <;>
    simp [buildRow, statusOf, headersOf, bodyOf, headerList_eq_map, hb]

/-- Witness of C9: a response with status 200 whose body cannot be read. -/
theorem success_row_witness :
    (envResolved { resp := some brokenBodyResponse, err := false }).LookupIP (lit "example.com")
      = { ipAddr := sampleIP :: [], err := false } ∧
    (envResolved { resp := some brokenBodyResponse, err := false }).NewRequestErr (lit "GET")
      (probeURL (lit "example.com") (lit "80") (lit "http")) = false ∧
    (envResolved { resp := some brokenBodyResponse, err := false }).Do probeClient
      (probeRequest (lit "example.com") (lit "80") (lit "http"))
      = { resp := some brokenBodyResponse, err := false } ∧
    ∃ row, outputSends (probeDomain (envResolved { resp := some brokenBodyResponse, err := false })
        (lit "example.com") (lit "80") (lit "http")) = [row] ∧
      row.ResponseStatus = decimal brokenBodyResponse.StatusCode ∧
      row.Headers = Join (brokenBodyResponse.Header.map
        (fun kv => kv.1 ++ lit ":" ++ Join kv.2 (lit "</br>"))) (lit ",") ∧
      (brokenBodyResponse.Body.err = false →
        row.Body = brokenBodyResponse.Body.bodyBytes ∧
        row.RespSize = (brokenBodyResponse.Body.bodyBytes.length : Int)) ∧
      (brokenBodyResponse.Body.err = true → row.Body = lit "null" ∧ row.RespSize = 0) :=
  ⟨rfl, rfl, rfl,
    success_row (envResolved { resp := some brokenBodyResponse, err := false })
      (lit "example.com") (lit "80") (lit "http") sampleIP [] brokenBodyResponse rfl rfl rfl⟩

/-! ## C10 -/

/-- C10: when the lookup returns no error and a non-empty address list, the
trace holds no index-out-of-range panic, every emitted row carries the string
form of the first address and the arguments `domain`, `port` and `protocol`,
and a row is emitted whatever `client.Do` returned, once the request was
built and `client.Do` returned a response or an error. -/
theorem first_address_row (env : Env) (domain port protocol : GoString)
    (ip0 : IP) (rest : List IP)
    (hl : env.LookupIP domain = { ipAddr := ip0 :: rest, err := false }) :
    Event.goPanic PanicReason.indexOutOfRange ∉ probeDomain env domain port protocol ∧
    (∀ row ∈ outputSends (probeDomain env domain port protocol),
      row.IPAddress = env.IPString ip0 ∧ row.Domain = domain ∧ row.Port = port ∧
      row.Protocol = protocol) ∧
    (env.NewRequestErr (lit "GET") (probeURL domain port protocol) = false →
      ((env.Do probeClient (probeRequest domain port protocol)).resp ≠ none ∨
        (env.Do probeClient (probeRequest domain port protocol)).err = true) →
      ∃ row, outputSends (probeDomain env domain port protocol) = [row]) := by
  refine ⟨?_, ?_, ?_⟩
  · cases hn : env.NewRequestErr (lit "GET") (probeURL domain port protocol) with
    | true => simp [probeDomain, hl, hn]
    | false =>
      cases hd : env.Do probeClient (probeRequest domain port protocol) with
      | mk resp derr =>
        cases resp <;> cases derr <;>
          simp [probeDomain, hl, hn, hd, readEvents, deferredCalls]
  · intro row hrow
    obtain ⟨ip1, rest1, hl1, -, -, rfl⟩ :=
      mem_outputSends_probeDomain env domain port protocol row hrow
    rw [hl] at hl1
    simp only [LookupResult.mk.injEq, List.cons.injEq, and_true] at hl1
    obtain ⟨rfl, -⟩ := hl1
    simp [buildRow]
  · intro hn hr
    exact ⟨_, outputSends_probeDomain_resolved env domain port protocol ip0 rest hl hn hr⟩

/-- Witness of C10: `example.com` resolved to `sampleIP`, the request timing out. -/
theorem first_address_row_witness :
    (envResolved timeoutResult).LookupIP (lit "example.com")
      = { ipAddr := sampleIP :: [], err := false } ∧
    (Event.goPanic PanicReason.indexOutOfRange ∉
      probeDomain (envResolved timeoutResult) (lit "example.com") (lit "443") (lit "https") ∧
    (∀ row ∈ outputSends (probeDomain (envResolved timeoutResult)
        (lit "example.com") (lit "443") (lit "https")),
      row.IPAddress = (envResolved timeoutResult).IPString sampleIP ∧
      row.Domain = lit "example.com" ∧ row.Port = lit "443" ∧ row.Protocol = lit "https") ∧
    ((envResolved timeoutResult).NewRequestErr (lit "GET")
        (probeURL (lit "example.com") (lit "443") (lit "https")) = false →
      (((envResolved timeoutResult).Do probeClient
          (probeRequest (lit "example.com") (lit "443") (lit "https"))).resp ≠ none ∨
        ((envResolved timeoutResult).Do probeClient
          (probeRequest (lit "example.com") (lit "443") (lit "https"))).err = true) →
      ∃ row, outputSends (probeDomain (envResolved timeoutResult)
        (lit "example.com") (lit "443") (lit "https")) = [row])) :=
  ⟨rfl, first_address_row (envResolved timeoutResult) (lit "example.com") (lit "443")
    (lit "https") sampleIP [] rfl⟩

/-! ## C3 -/

/-- C3 at the failing input: when the lookup returns no error and no address,
line 82 panics, the deferred `wg.Done()` runs, and the trace holds a
decrement although nothing was sent on either channel. -/
theorem done_without_send :
    probeDomain envNoAddress (lit "example.com") (lit "80") (lit "http") =
      [Event.LookupIP (lit "example.com"),
       Event.NewRequest (lit "GET") (lit "http://example.com:80"),
       Event.Do probeClient (probeRequest (lit "example.com") (lit "80") (lit "http")),
       Event.ReadAll,
       Event.goPanic PanicReason.indexOutOfRange,
       Event.BodyClose,
       Event.wgDone,
       Event.crash] ∧
    Event.wgDone ∈ probeDomain envNoAddress (lit "example.com") (lit "80") (lit "http") ∧
    outputSends (probeDomain envNoAddress (lit "example.com") (lit "80") (lit "http")) = [] ∧
    unresolvedSends (probeDomain envNoAddress (lit "example.com") (lit "80") (lit "http")) = [] := by
  decide

/-- On every path that does not panic, a trace that decrements the counter
ends with its only decrement, and exactly one send (a row or a domain, never
both) comes before it. -/
theorem single_send_before_done (env : Env) (domain port protocol : GoString)
    (hpanic : ∀ reason, Event.goPanic reason ∉ probeDomain env domain port protocol)
    (hdone : Event.wgDone ∈ probeDomain env domain port protocol) :
    ∃ pre, probeDomain env domain port protocol = pre ++ [Event.wgDone] ∧
      Event.wgDone ∉ pre ∧
      (outputSends pre).length + (unresolvedSends pre).length = 1 := by
  cases hl : env.LookupIP domain with
  | mk ips lerr =>
    cases lerr with
    | true =>
      exact ⟨[Event.LookupIP domain, Event.sendUnresolved domain],
        by simp [probeDomain, hl], by simp, by simp [outputSends, unresolvedSends]⟩
    | false =>
      cases hn : env.NewRequestErr (lit "GET") (probeURL domain port protocol) with
      | true => simp [probeDomain, hl, hn] at hdone
      | false =>
        cases hd : env.Do probeClient (probeRequest domain port protocol) with
        | mk resp derr =>
          cases ips with
          | nil =>
            have h := hpanic PanicReason.indexOutOfRange
            have h2 := hpanic PanicReason.nilDereference
            cases resp <;> cases derr <;> simp [probeDomain, hl, hn, hd] at h h2
          | cons ip0 rest =>
            cases resp with
            | none =>
              cases derr with
              | false =>
                have h2 := hpanic PanicReason.nilDereference
                simp [probeDomain, hl, hn, hd] at h2
              | true =>
                refine ⟨[Event.LookupIP domain,
                  Event.NewRequest (lit "GET") (probeURL domain port protocol),
                  Event.Do probeClient (probeRequest domain port protocol),
                  Event.sendOutput (buildRow domain (env.IPString ip0) port protocol
                    { resp := none, err := true })], ?_, ?_, ?_⟩
                · simp [probeDomain, hl, hn, hd, readEvents, deferredCalls]
                · simp
                · simp [outputSends, unresolvedSends]
            | some r =>
              cases derr with
              | false =>
                refine ⟨[Event.LookupIP domain,
                  Event.NewRequest (lit "GET") (probeURL domain port protocol),
                  Event.Do probeClient (probeRequest domain port protocol),
                  Event.ReadAll,
                  Event.sendOutput (buildRow domain (env.IPString ip0) port protocol
                    { resp := some r, err := false }),
                  Event.BodyClose], ?_, ?_, ?_⟩
                · simp [probeDomain, hl, hn, hd, readEvents, deferredCalls]
                · simp
                · simp [outputSends, unresolvedSends]
              | true =>
                refine ⟨[Event.LookupIP domain,
                  Event.NewRequest (lit "GET") (probeURL domain port protocol),
                  Event.Do probeClient (probeRequest domain port protocol),
                  Event.sendOutput (buildRow domain (env.IPString ip0) port protocol
                    { resp := some r, err := true })], ?_, ?_, ?_⟩
                · simp [probeDomain, hl, hn, hd, readEvents, deferredCalls]
                · simp
                · simp [outputSends, unresolvedSends]

/-! ## C6 -/

/-- The probers spawned by a concatenation of dispatch traces. -/
theorem spawned_append (a b : List DispatchEvent) :
    spawned (a ++ b) = spawned a ++ spawned b := by
  induction a with
  | nil => rfl
  | cons e t ih => cases e <;> simp [spawned, ih]

/-- The total added by a concatenation of dispatch traces. -/
theorem added_append (a b : List DispatchEvent) :
    added (a ++ b) = added a + added b := by
  induction a with
  | nil => simp [added]
  | cons e t ih => cases e <;> simp [added, ih, Nat.add_assoc]

/-- One pass of the inner loop body spawns the probers the specification lists. -/
theorem spawned_dispatchPort (domain port : GoString) :
    spawned (dispatchPort domain port) = specProbers domain port := by
  unfold dispatchPort specProbers
  split
  · next h => simp [spawned, h]
  · split
    · next h => simp [spawned, h]
    · simp [spawned]

/-- One pass of the inner loop body adds what it spawns. -/
theorem added_dispatchPort (domain port : GoString) :
    added (dispatchPort domain port) = (spawned (dispatchPort domain port)).length := by
  unfold dispatchPort
  split
  · simp [spawned, added]
  · split <;> simp [spawned, added]

/-- In every prefix of one pass of the inner loop body, the spawns are covered
by the additions made so far. -/
theorem prefix_dispatchPort (domain port : GoString) (n : Nat) :
    (spawned ((dispatchPort domain port).take n)).length
      ≤ added ((dispatchPort domain port).take n) := by
  unfold dispatchPort
  split
  · rcases n with _ | _ | _ | n <;> simp [spawned, added]
  · split
    · rcases n with _ | _ | _ | n <;> simp [spawned, added]
    · rcases n with _ | _ | _ | _ | n <;> simp [spawned, added]

/-- Covered prefixes compose. -/
theorem prefix_append (a b : List DispatchEvent)
    (ha : ∀ n, (spawned (a.take n)).length ≤ added (a.take n))
    (hb : ∀ n, (spawned (b.take n)).length ≤ added (b.take n)) (n : Nat) :
    (spawned ((a ++ b).take n)).length ≤ added ((a ++ b).take n) := by
  rw [List.take_append_eq_append_take, spawned_append, added_append, List.length_append]
  exact Nat.add_le_add (ha n) (hb _)

/-- The inner loop spawns the listed probers for each port in list order. -/
theorem spawned_dispatchPorts (domain : GoString) (ports : List GoString) :
    spawned (dispatchPorts domain ports) = ports.flatMap (fun p => specProbers domain p) := by
  induction ports with
  | nil => rfl
  | cons p t ih => simp [dispatchPorts, spawned_append, spawned_dispatchPort, ih]

/-- The inner loop adds what it spawns. -/
theorem added_dispatchPorts (domain : GoString) (ports : List GoString) :
    added (dispatchPorts domain ports) = (spawned (dispatchPorts domain ports)).length := by
  induction ports with
  | nil => rfl
  | cons p t ih => simp [dispatchPorts, spawned_append, added_append, added_dispatchPort, ih]

/-- Every prefix of the inner loop is covered. -/
theorem prefix_dispatchPorts (domain : GoString) (ports : List GoString) (n : Nat) :
    (spawned ((dispatchPorts domain ports).take n)).length
      ≤ added ((dispatchPorts domain ports).take n) := by
  induction ports generalizing n with
  | nil => simp [dispatchPorts, spawned, added]
  | cons p t ih =>
    exact prefix_append _ _ (prefix_dispatchPort domain p) ih n

/-- C6: the dispatch loop spawns exactly the probers the specification lists,
domains in input order and ports in list order; with the default port list
these are the `http` prober on port 80 and the `https` prober on port 443 of
each domain, two per domain; the total added to the counter equals the number
of probers spawned; and in every prefix of the loop's trace the probers
spawned so far are covered by the additions made so far. -/
theorem dispatch_spawns (ports domains : List GoString) :
    spawned (dispatch ports domains) = specDispatch ports domains ∧
    spawned (dispatch portsToProbe domains) =
      domains.flatMap (fun d => [(d, lit "80", lit "http"), (d, lit "443", lit "https")]) ∧
    (spawned (dispatch portsToProbe domains)).length = 2 * domains.length ∧
    added (dispatch ports domains) = (spawned (dispatch ports domains)).length ∧
    ∀ n, (spawned ((dispatch ports domains).take n)).length
      ≤ added ((dispatch ports domains).take n) := by
  refine ⟨?_, ?_, ?_, ?_, ?_⟩
  · induction domains with
    | nil => rfl
    | cons d t ih =>
      simp only [dispatch, spawned_append, spawned_dispatchPorts, ih, specDispatch,
        List.flatMap_cons]
  · induction domains with
    | nil => rfl
    | cons d t ih =>
      simp only [dispatch, spawned_append, ih, List.flatMap_cons]
      rfl
  · induction domains with
    | nil => rfl
    | cons d t ih =>
      simp only [dispatch, spawned_append, List.length_append, ih, List.length_cons]
      have : (spawned (dispatchPorts d portsToProbe)).length = 2 := by
        have h1 : lit "443" ≠ lit "80" := by decide
        simp [portsToProbe, dispatchPorts, dispatchPort, spawned, h1]
      omega
  · induction domains with
    | nil => rfl
    | cons d t ih =>
      simp only [dispatch, spawned_append, added_append, List.length_append, ih,
        added_dispatchPorts]
  · induction domains with
    | nil => intro n; simp [dispatch, spawned, added]
    | cons d t ih =>
      intro n
      exact prefix_append _ _ (prefix_dispatchPorts d ports) ih n

/-! ## C5 -/

/-- One iteration of the loop handles one item or one closure and leaves the
final state unchanged. -/
theorem selectStep_progress (execErr : OutputRow → Bool) (pick : Bool) (c : Collector)
    (h : 0 < c.remaining) :
    ∃ c', selectStep execErr pick c = some c' ∧ c'.remaining + 1 = c.remaining ∧
      c'.final execErr = c.final execErr := by
  obtain ⟨out, unres, so, ec, el, ud, ins, uf, s1, s2⟩ := c
  cases out with
  | none =>
    cases unres with
    | none => simp [Collector.remaining] at h
    | some q =>
      cases q with
      | nil => simp [selectStep, caseUnresolved, Collector.remaining, Collector.final]
      | cons d t =>
        simp [selectStep, caseUnresolved, Collector.remaining, Collector.final]
  | some r =>
    cases unres with
    | none =>
      cases r with
      | nil => simp [selectStep, caseOutput, Collector.remaining, Collector.final]
      | cons row t =>
        cases he : execErr row <;>
          simp [selectStep, caseOutput, Collector.remaining, Collector.final, he,
            List.filter_cons]
    | some q =>
      cases pick with
      | true =>
        cases r with
        | nil =>
          simp [selectStep, caseOutput, Collector.remaining, Collector.final]
          omega
        | cons row t =>
          cases he : execErr row <;>
            simp [selectStep, caseOutput, Collector.remaining, Collector.final, he,
              List.filter_cons] <;> omega
      | false =>
        cases q with
        | nil =>
          simp [selectStep, caseUnresolved, Collector.remaining, Collector.final]
        | cons d t =>
          simp [selectStep, caseUnresolved, Collector.remaining, Collector.final]
          omega

/-- Once both channel variables are nil the state is final. -/
theorem final_of_remaining_zero (execErr : OutputRow → Bool) (c : Collector)
    (h : c.remaining = 0) : c.final execErr = c := by
  obtain ⟨out, unres, so, ec, el, ud, ins, uf, s1, s2⟩ := c
  cases out <;> cases unres <;> simp [Collector.remaining] at h
  simp [Collector.final]

/-- The exit test of line 194 holds exactly when nothing remains. -/
theorem exit_iff_remaining_zero (c : Collector) :
    (c.output.isNone && c.unresolvedOutput.isNone) = true ↔ c.remaining = 0 := by
  obtain ⟨out, unres, so, ec, el, ud, ins, uf, s1, s2⟩ := c
  cases out <;> cases unres <;> simp [Collector.remaining]

/-- From any state with work left, the loop runs exactly `remaining` more
iterations, whatever `select` chooses, and ends in the final state. -/
theorem collect_from (execErr : OutputRow → Bool) (sched : Nat → Bool) (fuel : Nat) :
    ∀ (i : Nat) (c : Collector), 0 < c.remaining →
      (c.remaining ≤ fuel → collect execErr sched fuel i c = some (c.final execErr)) ∧
      (fuel < c.remaining → collect execErr sched fuel i c = none) := by
  induction fuel with
  | zero =>
    intro i c h
    exact ⟨fun hle => absurd hle (by omega), fun _ => rfl⟩
  | succ fuel ih =>
    intro i c h
    obtain ⟨c', hstep, hrem, hfin⟩ := selectStep_progress execErr (sched i) c h
    by_cases hz : c'.remaining = 0
    · have hexit := (exit_iff_remaining_zero c').mpr hz
      refine ⟨fun _ => ?_, fun hlt => absurd hlt (by omega)⟩
      simp [collect, hstep, hexit, ← hfin, final_of_remaining_zero execErr c' hz]
    · have hexit : ¬ ((c'.output.isNone && c'.unresolvedOutput.isNone) = true) :=
        fun hx => hz ((exit_iff_remaining_zero c').mp hx)
      obtain ⟨ih1, ih2⟩ := ih (i + 1) c' (Nat.pos_of_ne_zero hz)
      refine ⟨fun hle => ?_, fun hlt => ?_⟩
      · have hrun := ih1 (by omega)
        simp [collect, hstep, hexit, hrun, hfin]
      · have hrun := ih2 (by omega)
        simp [collect, hstep, hexit, hrun]

/-- The keys of the map after a run of insertions. -/
theorem mem_foldl_mapInsert (l m : List GoString) (d : GoString) :
    d ∈ l.foldl mapInsert m ↔ d ∈ m ∨ d ∈ l := by
  induction l generalizing m with
  | nil => simp
  | cons a t ih =>
    rw [List.foldl_cons, ih]
    unfold mapInsert
    split
    · next hmem =>
      constructor
      · rintro (h | h)
        · exact Or.inl h
        · exact Or.inr (List.mem_cons_of_mem _ h)
      · rintro (h | h)
        · exact Or.inl h
        · rcases List.mem_cons.mp h with rfl | h
          · exact Or.inl hmem
          · exact Or.inr h
    · simp only [List.mem_append, List.mem_singleton, List.mem_cons]
      tauto

/-- C5: for every sequence of rows and of markers delivered before the
channels report closed, and every choice `select` makes, the collector loop
terminates after exactly one iteration per item and one per closure, never
earlier; when it exits both channel variables are nil and both closures have
been observed; every row was printed once and upserted once, in channel
order, and every marker was inserted once into the set and appended once to
the file. -/
theorem collect_handles_all (execErr : OutputRow → Bool) (sched : Nat → Bool)
    (rows : List OutputRow) (markers : List GoString) :
    ∃ c : Collector,
      (∀ fuel,
        (rows.length + markers.length + 2 ≤ fuel →
          collect execErr sched fuel 0 (Collector.start rows markers) = some c) ∧
        (fuel < rows.length + markers.length + 2 →
          collect execErr sched fuel 0 (Collector.start rows markers) = none)) ∧
      c.output = none ∧ c.unresolvedOutput = none ∧
      c.sawOutputClosed = true ∧ c.sawUnresolvedClosed = true ∧
      c.stdout = rows.map formatRow ∧ c.execCalls = rows ∧
      c.insertions = markers ∧
      c.unresolvedFile = markers.map (fun d => d ++ lit "\n") ∧
      ∀ d, d ∈ c.unresolvedDomains ↔ d ∈ markers := by
  have hrem : (Collector.start rows markers).remaining = rows.length + markers.length + 2 := by
    simp [Collector.start, Collector.remaining]
    omega
  refine ⟨(Collector.start rows markers).final execErr, ?_, rfl, rfl, ?_, ?_, ?_, ?_, ?_, ?_, ?_⟩
  · intro fuel
    have h := collect_from execErr sched fuel 0 (Collector.start rows markers) (by omega)
    rw [hrem] at h
    exact h
  · simp [Collector.final, Collector.start]
  · simp [Collector.final, Collector.start]
  · simp [Collector.final, Collector.start]
  · simp [Collector.final, Collector.start]
  · simp [Collector.final, Collector.start]
  · simp [Collector.final, Collector.start]
  · intro d
    simp [Collector.final, Collector.start, mem_foldl_mapInsert]

/-- A run of the collector on two rows and two markers for the same domain,
`select` alternating between the channels. -/
theorem collect_example :
    (collect (fun _ => false) (fun i => i % 2 == 0) 6 0
      (Collector.start [sampleRow, timeoutRow] [lit "bad.invalid", lit "bad.invalid"])).map
      (fun c => (c.execCalls, c.insertions, c.unresolvedDomains, c.unresolvedFile))
    = some ([sampleRow, timeoutRow], [lit "bad.invalid", lit "bad.invalid"],
        [lit "bad.invalid"], [lit "bad.invalid\n", lit "bad.invalid\n"]) := by
  decide

/-! ## C4 -/

/-- Every send of `probeDomain` is followed by the deferred `wg.Done()`. -/
theorem doneAfterSends_probeDomain (env : Env) (domain port protocol : GoString) :
    doneAfterSends (probeDomain env domain port protocol) = true := by
  cases hl : env.LookupIP domain with
  | mk ips lerr =>
    cases lerr with
    | true => simp [probeDomain, hl, doneAfterSends, Event.isSend]
    | false =>
      cases hn : env.NewRequestErr (lit "GET") (probeURL domain port protocol) with
      | true => simp [probeDomain, hl, hn, doneAfterSends, Event.isSend]
      | false =>
        cases hd : env.Do probeClient (probeRequest domain port protocol) with
        | mk resp derr =>
          cases ips <;> cases resp <;> cases derr <;>
            simp [probeDomain, hl, hn, hd, doneAfterSends, Event.isSend, readEvents,
              deferredCalls]

/-- A call of `probeDomain` decrements the counter at most once. -/
theorem count_wgDone_probeDomain (env : Env) (domain port protocol : GoString) :
    (probeDomain env domain port protocol).count Event.wgDone ≤ 1 := by
  cases hl : env.LookupIP domain with
  | mk ips lerr =>
    cases lerr with
    | true => simp [probeDomain, hl]
    | false =>
      cases hn : env.NewRequestErr (lit "GET") (probeURL domain port protocol) with
      | true => simp [probeDomain, hl, hn]
      | false =>
        cases hd : env.Do probeClient (probeRequest domain port protocol) with
        | mk resp derr =>
          cases ips <;> cases resp <;> cases derr <;>
            simp [probeDomain, hl, hn, hd, readEvents, deferredCalls]

/-- A call of `probeDomain` performs at most one channel send. -/
theorem sends_le_one (env : Env) (domain port protocol : GoString) :
    (outputSends (probeDomain env domain port protocol)).length
      + (unresolvedSends (probeDomain env domain port protocol)).length ≤ 1 := by
  cases hl : env.LookupIP domain with
  | mk ips lerr =>
    cases lerr with
    | true => simp [probeDomain, hl, outputSends, unresolvedSends]
    | false =>
      cases hn : env.NewRequestErr (lit "GET") (probeURL domain port protocol) with
      | true => simp [probeDomain, hl, hn, outputSends, unresolvedSends]
      | false =>
        cases hd : env.Do probeClient (probeRequest domain port protocol) with
        | mk resp derr =>
          cases ips <;> cases resp <;> cases derr <;>
            simp [probeDomain, hl, hn, hd, outputSends, unresolvedSends, readEvents,
              deferredCalls]

/-- The entry a scheduler index selects splits the list of probers. -/
theorem probers_set_split {α : Type} (l : List α) (i : Nat) (x y : α) (h : l.get? i = some x) :
    ∃ pre post, l = pre ++ x :: post ∧ l.set i y = pre ++ y :: post := by
  induction l generalizing i with
  | nil => simp at h
  | cons a t ih =>
    cases i with
    | zero =>
      simp at h
      exact ⟨[], t, by simp [h], by simp⟩
    | succ j =>
      simp at h
      obtain ⟨pre, post, h1, h2⟩ := ih j (by simpa using h)
      exact ⟨a :: pre, post, by simp [h1], by simp [h2]⟩

/-- The pending decrements of a list of probers split at one prober. -/
theorem pendingDone_split (pre post : List (List Event)) (t : List Event) :
    pendingDone (pre ++ t :: post)
      = pendingDone pre + t.count Event.wgDone + pendingDone post := by
  simp [pendingDone, Nat.add_assoc]

/-- A well-ordered trace without a decrement holds no send. -/
theorem no_send_of_no_done (t : List Event) (h : doneAfterSends t = true)
    (hcount : t.count Event.wgDone = 0) : ∀ e ∈ t, e.isSend = false := by
  induction t with
  | nil => simp
  | cons a r ih =>
    simp only [doneAfterSends, Bool.and_eq_true] at h
    have hr : r.count Event.wgDone = 0 := by
      have := List.count_le_count_cons Event.wgDone a r
      omega
    have hnot : Event.wgDone ∉ r := by
      intro hm
      have := List.count_pos_iff.mpr hm
      omega
    intro e he
    rcases List.mem_cons.mp he with rfl | he
    · cases hs : e.isSend with
      | false => rfl
      | true => simp [hs, hnot] at h
    · exact ih h.2 hr e he

/-- The spawns no addition covers, as a difference. -/
theorem uncovered_eq (l : List DispatchEvent) :
    uncovered l = ((spawned l).length : Int) - (added l : Int) := by
  induction l with
  | nil => rfl
  | cons e t ih =>
    cases e <;> simp [uncovered, spawned, added, ih] <;> omega

/-- The dispatch loop adds to the counter exactly the number of probers it spawns. -/
theorem added_dispatch (ports domains : List GoString) :
    added (dispatch ports domains) = (spawned (dispatch ports domains)).length := by
  induction domains with
  | nil => rfl
  | cons d t ih =>
    simp only [dispatch, spawned_append, added_append, List.length_append, ih,
      added_dispatchPorts]

/-! ### The invariant and its preservation -/

/-- The invariant holds when `main` enters the dispatch loop. -/
theorem SysInv.init (ports domains : List GoString) : SysInv (Sys.init ports domains) where
  late := rfl
  covered := by
    simp [Sys.init, pendingDone, uncovered_eq, added_dispatch]
  dispatched := by simp [Sys.init]
  zero := by simp [Sys.init]
  outputClosedBy := by simp [Sys.init]
  unresolvedClosedBy := by simp [Sys.init]
  ordered := by simp [Sys.init]

/-- While a prober has a decrement to perform, `wg.Wait()` has not returned:
the watcher has not started or is still waiting. -/
theorem SysInv.watcher_blocked {s : Sys} (inv : SysInv s) (h : 0 < pendingDone s.probers) :
    s.watcher = WatcherPc.notStarted ∨ s.watcher = WatcherPc.waiting := by
  by_cases h1 : s.watcher = WatcherPc.notStarted
  · exact Or.inl h1
  by_cases h2 : s.watcher = WatcherPc.waiting
  · exact Or.inr h2
  have hz := inv.zero h1 h2
  have ht := inv.dispatched h1
  have hc := inv.covered
  rw [ht, hz] at hc
  simp [uncovered] at hc
  omega

/-- A step of the main goroutine keeps the invariant. -/
theorem SysInv.step_main {envs : Nat → Env} {s s' : Sys} (inv : SysInv s)
    (h : step envs s Choice.main = some s') : SysInv s' := by
  unfold step at h
  split at h
  · simp at h
  · simp only at h
    split at h
    · next n rest htodo =>
      simp only [Option.some.injEq] at h
      subst h
      have hw : s.watcher = WatcherPc.notStarted := by
        by_contra hne
        have := inv.dispatched hne
        rw [htodo] at this
        simp at this
      have hc := inv.covered
      rw [htodo] at hc
      simp only [uncovered] at hc
      exact {
        late := inv.late
        covered := by simp only; omega
        dispatched := by simp [hw]
        zero := by simp [hw]
        outputClosedBy := inv.outputClosedBy
        unresolvedClosedBy := inv.unresolvedClosedBy
        ordered := inv.ordered }
    · next d p q rest htodo =>
      simp only [Option.some.injEq] at h
      subst h
      have hw : s.watcher = WatcherPc.notStarted := by
        by_contra hne
        have := inv.dispatched hne
        rw [htodo] at this
        simp at this
      have hc := inv.covered
      rw [htodo] at hc
      simp only [uncovered] at hc
      have hone := count_wgDone_probeDomain (envs s.probers.length) d p q
      exact {
        late := inv.late
        covered := by
          simp only [pendingDone, List.map_append, List.sum_append, List.map_cons,
            List.map_nil, List.sum_cons, List.sum_nil]
          simp only [pendingDone] at hc
          omega
        dispatched := by simp [hw]
        zero := by simp [hw]
        outputClosedBy := inv.outputClosedBy
        unresolvedClosedBy := inv.unresolvedClosedBy
        ordered := by
          intro t ht
          simp only [List.mem_append, List.mem_singleton] at ht
          rcases ht with ht | rfl
          · exact inv.ordered t ht
          · exact doneAfterSends_probeDomain _ _ _ _ }
    · next htodo =>
      split at h
      · next hw =>
        simp only [Option.some.injEq] at h
        subst h
        exact {
          late := inv.late
          covered := inv.covered
          dispatched := by intro _; exact htodo
          zero := by simp
          outputClosedBy := by
            intro hcl
            have := inv.outputClosedBy hcl
            rw [hw] at this
            simp at this
          unresolvedClosedBy := by
            intro hcl
            have := inv.unresolvedClosedBy hcl
            rw [hw] at this
            simp at this
          ordered := inv.ordered }
      · simp at h

/-- A step of the watcher keeps the invariant. -/
theorem SysInv.step_watcher {envs : Nat → Env} {s s' : Sys} (inv : SysInv s)
    (h : step envs s Choice.watcher = some s') : SysInv s' := by
  unfold step at h
  split at h
  · simp at h
  · simp only at h
    split at h
    · simp at h
    · next hw =>
      split at h
      · next hzero =>
        simp only [Option.some.injEq] at h
        subst h
        exact {
          late := inv.late
          covered := inv.covered
          dispatched := by intro _; exact inv.dispatched (by simp [hw])
          zero := by intro _ _; exact hzero
          outputClosedBy := by
            intro hcl
            have := inv.outputClosedBy hcl
            rw [hw] at this
            simp at this
          unresolvedClosedBy := by
            intro hcl
            have := inv.unresolvedClosedBy hcl
            rw [hw] at this
            simp at this
          ordered := inv.ordered }
      · simp at h
    · next hw =>
      simp only [Option.some.injEq] at h
      subst h
      exact {
        late := inv.late
        covered := inv.covered
        dispatched := by intro _; exact inv.dispatched (by simp [hw])
        zero := by intro _ _; exact inv.zero (by simp [hw]) (by simp [hw])
        outputClosedBy := by simp
        unresolvedClosedBy := by
          intro hcl
          have := inv.unresolvedClosedBy hcl
          rw [hw] at this
          simp at this
        ordered := inv.ordered }
    · next hw =>
      simp only [Option.some.injEq] at h
      subst h
      exact {
        late := inv.late
        covered := inv.covered
        dispatched := by intro _; exact inv.dispatched (by simp [hw])
        zero := by intro _ _; exact inv.zero (by simp [hw]) (by simp [hw])
        outputClosedBy := by simp
        unresolvedClosedBy := by simp
        ordered := inv.ordered }
    · simp at h

/-- A receive keeps the invariant. -/
theorem SysInv.step_receive {envs : Nat → Env} {s s' : Sys} (inv : SysInv s) (b : Bool)
    (h : step envs s (Choice.receive b) = some s') : SysInv s' := by
  unfold step at h
  split at h
  · simp at h
  · cases b with
    | true =>
      simp only at h
      split at h
      · simp at h
      · simp only [Option.some.injEq] at h
        subst h
        exact {
          late := inv.late
          covered := inv.covered
          dispatched := inv.dispatched
          zero := inv.zero
          outputClosedBy := inv.outputClosedBy
          unresolvedClosedBy := inv.unresolvedClosedBy
          ordered := inv.ordered }
      · simp at h
    | false =>
      simp only at h
      split at h
      · simp at h
      · simp only [Option.some.injEq] at h
        subst h
        exact {
          late := inv.late
          covered := inv.covered
          dispatched := inv.dispatched
          zero := inv.zero
          outputClosedBy := inv.outputClosedBy
          unresolvedClosedBy := inv.unresolvedClosedBy
          ordered := inv.ordered }
      · simp at h

/-- An exit of the main goroutine keeps the invariant. -/
theorem SysInv.step_exit {envs : Nat → Env} {s s' : Sys} (inv : SysInv s)
    (h : step envs s Choice.mainExit = some s') : SysInv s' := by
  unfold step at h
  split at h
  · simp at h
  · simp only at h
    split at h
    · simp at h
    · simp only [Option.some.injEq] at h
      subst h
      exact {
        late := inv.late
        covered := inv.covered
        dispatched := inv.dispatched
        zero := inv.zero
        outputClosedBy := inv.outputClosedBy
        unresolvedClosedBy := inv.unresolvedClosedBy
        ordered := inv.ordered }
    · simp at h

/-- A prober that performs an event other than the decrement keeps the invariant. -/
theorem SysInv.advance {s : Sys} (inv : SysInv s) (pre post : List (List Event))
    (ev : Event) (rest : List Event) (hsplit : s.probers = pre ++ (ev :: rest) :: post)
    (hev : ev ≠ Event.wgDone) :
    SysInv { s with probers := pre ++ rest :: post } where
  late := inv.late
  covered := by
    have hc := inv.covered
    rw [hsplit, pendingDone_split] at hc
    simp only [pendingDone_split]
    have : (ev :: rest).count Event.wgDone = rest.count Event.wgDone := by
      simp [List.count_cons, hev]
    omega
  dispatched := inv.dispatched
  zero := inv.zero
  outputClosedBy := inv.outputClosedBy
  unresolvedClosedBy := inv.unresolvedClosedBy
  ordered := by
    intro t ht
    simp only [List.mem_append, List.mem_cons] at ht
    have hall := inv.ordered
    rw [hsplit] at hall
    rcases ht with ht | rfl | ht
    · exact hall t (by simp [ht])
    · have := hall (ev :: t) (by simp)
      simp only [doneAfterSends, Bool.and_eq_true] at this
      exact this.2
    · exact hall t (by simp [ht])

/-- A prober about to send has a decrement to perform, so no channel is closed. -/
theorem SysInv.open_at_send {s : Sys} (inv : SysInv s) (pre post : List (List Event))
    (ev : Event) (rest : List Event) (hsplit : s.probers = pre ++ (ev :: rest) :: post)
    (hsend : ev.isSend = true) : s.outputClosed = false ∧ s.unresolvedClosed = false := by
  have hord := inv.ordered (ev :: rest) (by simp [hsplit])
  simp only [doneAfterSends, hsend, if_true, Bool.and_eq_true, decide_eq_true_eq] at hord
  have hpos : 0 < pendingDone s.probers := by
    rw [hsplit, pendingDone_split]
    have h1 := List.count_pos_iff.mpr hord.1
    have h2 := List.count_le_count_cons Event.wgDone ev rest
    omega
  have hw := inv.watcher_blocked hpos
  constructor
  · cases hcl : s.outputClosed with
    | false => rfl
    | true =>
      have := inv.outputClosedBy hcl
      rcases hw with hw | hw <;> rw [hw] at this <;> simp at this
  · cases hcl : s.unresolvedClosed with
    | false => rfl
    | true =>
      have := inv.unresolvedClosedBy hcl
      rcases hw with hw | hw <;> rw [hw] at this <;> simp at this

/-- A prober that decrements the counter keeps the invariant. -/
theorem SysInv.decrement {s : Sys} (inv : SysInv s) (pre post : List (List Event))
    (rest : List Event) (hsplit : s.probers = pre ++ (Event.wgDone :: rest) :: post)
    (b : Bool) :
    SysInv { s with probers := pre ++ rest :: post, counter := s.counter - 1, halted := b } := by
  have hpos : 0 < pendingDone s.probers := by
    rw [hsplit, pendingDone_split]
    simp [List.count_cons]
  have hw := inv.watcher_blocked hpos
  exact {
    late := inv.late
    covered := by
      have hc := inv.covered
      rw [hsplit, pendingDone_split] at hc
      simp only [pendingDone_split]
      have : (Event.wgDone :: rest).count Event.wgDone = rest.count Event.wgDone + 1 := by
        simp [List.count_cons]
      omega
    dispatched := inv.dispatched
    zero := by
      intro h1 h2
      rcases hw with hw | hw
      · exact absurd hw h1
      · exact absurd hw h2
    outputClosedBy := inv.outputClosedBy
    unresolvedClosedBy := inv.unresolvedClosedBy
    ordered := by
      intro t ht
      simp only [List.mem_append, List.mem_cons] at ht
      have hall := inv.ordered
      rw [hsplit] at hall
      rcases ht with ht | rfl | ht
      · exact hall t (by simp [ht])
      · have := hall (Event.wgDone :: t) (by simp)
        simp only [doneAfterSends, Bool.and_eq_true] at this
        exact this.2
      · exact hall t (by simp [ht]) }

/-- A step of a prober keeps the invariant. -/
theorem SysInv.step_prober {envs : Nat → Env} {s s' : Sys} (inv : SysInv s) (i : Nat)
    (h : step envs s (Choice.prober i) = some s') : SysInv s' := by
  unfold step at h
  split at h
  · simp at h
  · simp only at h
    split at h
    · next ev rest hget =>
      obtain ⟨pre, post, hsplit, hset⟩ := probers_set_split s.probers i (ev :: rest) rest hget
      rw [hset] at h
      cases ev with
      | sendOutput row =>
        have hopen := inv.open_at_send pre post _ rest hsplit rfl
        have hadv := inv.advance pre post _ rest hsplit (by simp)
        simp only [execEvent] at h
        split at h
        · next hcl => simp [hopen.1] at hcl
        · split at h
          · simp only [Option.some.injEq] at h
            subst h
            exact {
              late := hadv.late
              covered := hadv.covered
              dispatched := hadv.dispatched
              zero := hadv.zero
              outputClosedBy := hadv.outputClosedBy
              unresolvedClosedBy := hadv.unresolvedClosedBy
              ordered := hadv.ordered }
          · simp at h
      | sendUnresolved d =>
        have hopen := inv.open_at_send pre post _ rest hsplit rfl
        have hadv := inv.advance pre post _ rest hsplit (by simp)
        simp only [execEvent] at h
        split at h
        · next hcl => simp [hopen.2] at hcl
        · split at h
          · simp only [Option.some.injEq] at h
            subst h
            exact {
              late := hadv.late
              covered := hadv.covered
              dispatched := hadv.dispatched
              zero := hadv.zero
              outputClosedBy := hadv.outputClosedBy
              unresolvedClosedBy := hadv.unresolvedClosedBy
              ordered := hadv.ordered }
          · simp at h
      | wgDone =>
        simp only [execEvent] at h
        split at h
        · simp only [Option.some.injEq] at h
          subst h
          exact inv.decrement pre post rest hsplit true
        · simp only [Option.some.injEq] at h
          subst h
          have := inv.decrement pre post rest hsplit s.halted
          exact this
      | logFatal =>
        have hadv := inv.advance pre post _ rest hsplit (by simp)
        simp only [execEvent, Option.some.injEq] at h
        subst h
        exact {
          late := hadv.late
          covered := hadv.covered
          dispatched := hadv.dispatched
          zero := hadv.zero
          outputClosedBy := hadv.outputClosedBy
          unresolvedClosedBy := hadv.unresolvedClosedBy
          ordered := hadv.ordered }
      | crash =>
        have hadv := inv.advance pre post _ rest hsplit (by simp)
        simp only [execEvent, Option.some.injEq] at h
        subst h
        exact {
          late := hadv.late
          covered := hadv.covered
          dispatched := hadv.dispatched
          zero := hadv.zero
          outputClosedBy := hadv.outputClosedBy
          unresolvedClosedBy := hadv.unresolvedClosedBy
          ordered := hadv.ordered }
      | LookupIP _ | NewRequest _ _ | Do _ _ | ReadAll | BodyClose | goPanic _ =>
        have hadv := inv.advance pre post _ rest hsplit (by simp)
        simp only [execEvent, Option.some.injEq] at h
        subst h
        exact hadv
    · simp at h

/-- Every step keeps the invariant. -/
theorem SysInv.step {envs : Nat → Env} {s s' : Sys} (inv : SysInv s) (c : Choice)
    (h : step envs s c = some s') : SysInv s' := by
  cases c with
  | main => exact inv.step_main h
  | watcher => exact inv.step_watcher h
  | prober i => exact inv.step_prober i h
  | receive b => exact inv.step_receive b h
  | mainExit => exact inv.step_exit h

/-- Every schedule keeps the invariant. -/
theorem SysInv.run {envs : Nat → Env} (cs : List Choice) :
    ∀ {s s' : Sys}, SysInv s → run envs s cs = some s' → SysInv s' := by
  induction cs with
  | nil =>
    intro s s' inv h
    simp only [Triager.run, Option.some.injEq] at h
    exact h ▸ inv
  | cons c t ih =>
    intro s s' inv h
    simp only [Triager.run] at h
    split at h
    · next s1 hs1 => exact ih (inv.step c hs1) h
    · simp at h

/-- When no decrement is pending, no prober holds one. -/
theorem count_zero_of_pendingDone_zero (ps : List (List Event)) (h : pendingDone ps = 0) :
    ∀ t ∈ ps, t.count Event.wgDone = 0 := by
  induction ps with
  | nil => simp
  | cons a r ih =>
    simp only [pendingDone, List.map_cons, List.sum_cons] at h
    intro t ht
    rcases List.mem_cons.mp ht with rfl | ht
    · omega
    · exact ih (by simp only [pendingDone]; omega) t ht

/-- Once `wg.Wait()` has returned no prober has a send to perform. -/
theorem SysInv.no_pending_send {s : Sys} (inv : SysInv s)
    (h1 : s.watcher ≠ WatcherPc.notStarted) (h2 : s.watcher ≠ WatcherPc.waiting) :
    ∀ t ∈ s.probers, ∀ e ∈ t, e.isSend = false := by
  have hz := inv.zero h1 h2
  have ht := inv.dispatched h1
  have hc := inv.covered
  rw [ht, hz] at hc
  simp only [uncovered, add_zero] at hc
  have hp : pendingDone s.probers = 0 := by omega
  intro t htm
  exact no_send_of_no_done t (inv.ordered t htm)
    (count_zero_of_pendingDone_zero s.probers hp t htm)

/-- C4: in every state the dispatcher, the probers and the watcher can reach,
under any schedule, no send was performed on a closed channel; once a channel
is closed no prober has a send left to perform and the counter is zero; the
watcher starts only after the dispatch loop has made all its additions; in
every prober each send still to come precedes that prober's decrement; and a
call of `probeDomain` sends at most once, before its decrement. -/
theorem no_send_after_close (envs : Nat → Env) (ports domains : List GoString)
    (schedule : List Choice) (s : Sys)
    (h : run envs (Sys.init ports domains) schedule = some s) :
    s.lateSends = [] ∧
    ((s.outputClosed = true ∨ s.unresolvedClosed = true) →
      (∀ t ∈ s.probers, ∀ e ∈ t, e.isSend = false) ∧ s.counter = 0) ∧
    (s.watcher ≠ WatcherPc.notStarted → s.todo = []) ∧
    (∀ t ∈ s.probers, doneAfterSends t = true) ∧
    (∀ k domain port protocol,
      doneAfterSends (probeDomain (envs k) domain port protocol) = true ∧
      (outputSends (probeDomain (envs k) domain port protocol)).length
        + (unresolvedSends (probeDomain (envs k) domain port protocol)).length ≤ 1) := by
  have inv : SysInv s := SysInv.run schedule (SysInv.init ports domains) h
  refine ⟨inv.late, ?_, inv.dispatched, inv.ordered,
    fun k d p q => ⟨doneAfterSends_probeDomain _ d p q, sends_le_one _ d p q⟩⟩
  intro hcl
  have hw : s.watcher = WatcherPc.closedOutput ∨ s.watcher = WatcherPc.closedBoth := by
    rcases hcl with hcl | hcl
    · exact inv.outputClosedBy hcl
    · exact Or.inr (inv.unresolvedClosedBy hcl)
  have h1 : s.watcher ≠ WatcherPc.notStarted := by
    rcases hw with hw | hw <;> simp [hw]
  have h2 : s.watcher ≠ WatcherPc.waiting := by
    rcases hw with hw | hw <;> simp [hw]
  exact ⟨inv.no_pending_send h1 h2, inv.zero h1 h2⟩

/-- Witness of C4: one unresolved domain, both probers run to their end, the
watcher closes both channels, the collector takes both markers. -/
theorem no_send_after_close_witness :
    ∃ s, run (fun _ => envUnresolved) (Sys.init portsToProbe [lit "bad.invalid"]) sampleSchedule
        = some s ∧
      s.outputClosed = true ∧ s.unresolvedClosed = true ∧
      (s.lateSends = [] ∧
      ((s.outputClosed = true ∨ s.unresolvedClosed = true) →
        (∀ t ∈ s.probers, ∀ e ∈ t, e.isSend = false) ∧ s.counter = 0) ∧
      (s.watcher ≠ WatcherPc.notStarted → s.todo = []) ∧
      (∀ t ∈ s.probers, doneAfterSends t = true) ∧
      (∀ (_ : Nat) (domain port protocol : GoString),
        doneAfterSends (probeDomain envUnresolved domain port protocol) = true ∧
        (outputSends (probeDomain envUnresolved domain port protocol)).length
          + (unresolvedSends (probeDomain envUnresolved domain port protocol)).length ≤ 1)) :=
  ⟨sampleFinal, by decide, rfl, rfl,
    no_send_after_close (fun _ => envUnresolved) portsToProbe [lit "bad.invalid"]
      sampleSchedule sampleFinal (by decide)⟩

end Triager
